import Mathlib

/-!
# Verification of the CampusCrush backend

Shallow embedding of the data model and the request handlers of the
CampusCrush backend (Express + Mongoose), together with proofs of the
behavioural properties stated in its specification.

Conventions of the embedding:
* Mongo ObjectIds are modelled as `Nat` (or `String` where the JavaScript
  code compares ids through `toString()`).
* A Mongo collection is a `List` of records; `findOne` is `List.find?`,
  `find` is `List.filter`, an in-place `save` of a document found by
  `findOne` is an update of the first list element satisfying the query.
* JavaScript values that may be `undefined`/`null` are `Option`s.
* Each handler becomes a pure function from its inputs and the relevant
  store state to the HTTP status / response payload and the new state.
-/

namespace CampusCrush

/-! ## Confession reactions (`routes/confessions.js`, `POST /:id/react`) -/

/-- Reaction types allowed by `reactionSchema` in `models/Confession.js`
(`enum: ['heart', 'laugh', 'fire', 'sad']`). -/
inductive RType
  | heart
  | laugh
  | fire
  | sad
deriving DecidableEq, Repr

/-- One embedded reaction document: `{ userId, type }`. -/
structure Reaction where
  userId : Nat
  type : RType
deriving DecidableEq, Repr

/-- The embedded reactions list transformation performed by
`POST /confessions/:id/react`: if the user already holds a reaction of the
requested type, the handler splices that entry out
(`findIndex` + `splice(idx, 1)`); otherwise it removes every other reaction
of that user (`filter`) and pushes `{ userId, type }`. -/
def reactToggle (userId : Nat) (type : RType) (reactions : List Reaction) :
    List Reaction :=
  if reactions.any (fun r => r.userId == userId && r.type == type) then
    reactions.eraseP (fun r => r.userId == userId && r.type == type)
  else
    (reactions.filter (fun r => !(r.userId == userId))) ++ [⟨userId, type⟩]

/-- Counter `reactionCounts[t]` as computed by the handler after saving: the number
of reactions of type `t`. -/
def countType (type : RType) (reactions : List Reaction) : Nat :=
  (reactions.filter (fun r => r.type == type)).length

/-- All reactions held by one user on the confession. -/
def userReactions (userId : Nat) (reactions : List Reaction) : List Reaction :=
  reactions.filter (fun r => r.userId == userId)

/-- The per-confession invariant: every user holds at most one reaction. -/
def reactionInv (reactions : List Reaction) : Prop :=
  ∀ u : Nat, (userReactions u reactions).length ≤ 1

/-- A reaction matching the toggle predicate of `reactToggle u X` is exactly
the record `⟨u, X⟩`. -/
lemma eq_of_togglePred {r : Reaction} {u : Nat} {X : RType}
    (h : (r.userId == u && r.type == X) = true) : r = ⟨u, X⟩ := by
  obtain ⟨h1, h2⟩ := Bool.and_eq_true_iff.mp h
  cases r
  simp only [beq_iff_eq] at h1 h2
  simp [h1, h2]

/-- With the at-most-one-reaction invariant, a user who holds `⟨u, X⟩` holds
exactly that list of reactions. -/
lemma userReactions_eq_singleton {rs : List Reaction} {u : Nat} {X : RType}
    (hinv : reactionInv rs) (hmem : (⟨u, X⟩ : Reaction) ∈ rs) :
    userReactions u rs = [⟨u, X⟩] := by
  have hmem' : (⟨u, X⟩ : Reaction) ∈ userReactions u rs := by
    simp [userReactions, List.mem_filter, hmem]
  have hlen := hinv u
  match hur : userReactions u rs with
  | [] => rw [hur] at hmem'; cases hmem'
  | [r] =>
    rw [hur] at hmem'
    simp at hmem'
    simp [hmem']
  | r₁ :: r₂ :: t => rw [hur] at hlen; simp at hlen

lemma sublist_userReactions_le {rs rs' : List Reaction} {u : Nat}
    (h : List.Sublist rs' rs) :
    (userReactions u rs').length ≤ (userReactions u rs).length :=
  (h.filter _).length_le

/-- Claim C2: reacting with type `X` while currently holding `X` removes the
reaction (the user ends with no reaction and the count for `X` drops back by
one); reacting with `X` while holding a different reaction or none leaves the
user with exactly the single reaction `⟨u, X⟩`; and in every case the
at-most-one-reaction-per-user invariant is preserved. -/
theorem confession_react_toggle (rs : List Reaction) (u : Nat) (X : RType)
    (hinv : reactionInv rs) :
    ((⟨u, X⟩ : Reaction) ∈ rs →
      userReactions u (reactToggle u X rs) = [] ∧
      countType X (reactToggle u X rs) + 1 = countType X rs) ∧
    ((⟨u, X⟩ : Reaction) ∉ rs →
      userReactions u (reactToggle u X rs) = [⟨u, X⟩]) ∧
    reactionInv (reactToggle u X rs) := by
  by_cases hmem : (⟨u, X⟩ : Reaction) ∈ rs
  · -- toggle-off branch: the handler erases the existing reaction
    have hany : rs.any (fun r => r.userId == u && r.type == X) = true := by
      refine List.any_eq_true.mpr ⟨⟨u, X⟩, hmem, ?_⟩
      simp
    have htoggle : reactToggle u X rs =
        rs.eraseP (fun r => r.userId == u && r.type == X) := by
      simp [reactToggle, hany]
    obtain ⟨a', l₁, l₂, hl₁, hpa, hsplit, herase⟩ :=
      List.exists_of_eraseP hmem (p := fun r => r.userId == u && r.type == X)
        (by simp)
    have ha' : a' = ⟨u, X⟩ := eq_of_togglePred hpa
    subst ha'
    have hfilter₁ : l₁.filter (fun r => r.userId == u) = [] ∧
        l₂.filter (fun r => r.userId == u) = [] := by
      have hsingle := userReactions_eq_singleton hinv hmem
      rw [hsplit] at hsingle
      simp only [userReactions, List.filter_append, List.filter_cons] at hsingle
      simp only [BEq.refl, Bool.true_and, beq_self_eq_true, if_pos] at hsingle
      have hlen := congrArg List.length hsingle
      simp only [List.length_append, List.length_cons, List.length_nil] at hlen
      constructor
      · exact List.length_eq_zero.mp (by omega)
      · exact List.length_eq_zero.mp (by omega)
    refine ⟨fun _ => ⟨?_, ?_⟩, fun h => absurd hmem h, ?_⟩
    · rw [htoggle, herase]
      simp only [userReactions, List.filter_append]
      rw [hfilter₁.1, hfilter₁.2]
      rfl
    · rw [htoggle, herase, hsplit]
      simp [countType, List.filter_append, List.filter_cons]
      omega
    · intro v
      rw [htoggle]
      exact le_trans (sublist_userReactions_le (List.eraseP_sublist rs)) (hinv v)
  · -- toggle-on branch: the handler drops the user's other reactions and
    -- pushes the new one
    have hany : rs.any (fun r => r.userId == u && r.type == X) = false := by
      by_contra h
      have := List.any_eq_true.mp (Bool.of_not_eq_false h)
      obtain ⟨r, hr, hpr⟩ := this
      exact hmem (eq_of_togglePred hpr ▸ hr)
    have htoggle : reactToggle u X rs =
        (rs.filter (fun r => !(r.userId == u))) ++ [⟨u, X⟩] := by
      simp [reactToggle, hany]
    have hdropped : ∀ v : Nat,
        userReactions v (rs.filter (fun r => !(r.userId == u))) =
          if v = u then [] else userReactions v rs := by
      intro v
      by_cases hv : v = u
      · subst hv
        simp only [if_pos rfl, userReactions]
        refine List.filter_eq_nil_iff.mpr ?_
        intro r hr
        have := (List.mem_filter.mp hr).2
        simp at this ⊢
        exact this
      · simp only [if_neg hv, userReactions]
        rw [List.filter_filter]
        congr 1
        funext r
        by_cases hru : r.userId = u
        · simp [hru, Ne.symm hv]
        · simp [hru]
    refine ⟨fun h => absurd h hmem, fun _ => ?_, ?_⟩
    · rw [htoggle]
      simp only [userReactions, List.filter_append]
      rw [show (rs.filter fun r => !(r.userId == u)).filter
            (fun r => r.userId == u) = userReactions u (rs.filter
            (fun r => !(r.userId == u))) from rfl, hdropped u]
      simp
    · intro v
      rw [htoggle]
      simp only [userReactions, List.filter_append]
      rw [show (rs.filter fun r => !(r.userId == u)).filter
            (fun r => r.userId == v) = userReactions v (rs.filter
            (fun r => !(r.userId == u))) from rfl, hdropped v]
      by_cases hv : v = u
      · simp [hv]
      · simp only [if_neg hv, List.length_append]
        have : (List.filter (fun r => r.userId == v) [(⟨u, X⟩ : Reaction)]).length = 0 := by
          simp [List.filter_cons, Ne.symm hv]
        rw [show (List.filter (fun r => r.userId == v) [(⟨u, X⟩ : Reaction)]) =
              userReactions v [⟨u, X⟩] from rfl] at this
        rw [show userReactions v [(⟨u, X⟩ : Reaction)] =
              List.filter (fun r => r.userId == v) [(⟨u, X⟩ : Reaction)] from rfl] at this
        rw [this]
        simpa using hinv v

/-- Concrete witness for `confession_react_toggle`: user 1 toggles off a
`heart` reaction they hold. -/
theorem confession_react_toggle_witness :
    userReactions 1 (reactToggle 1 RType.heart [⟨1, RType.heart⟩]) = [] ∧
    countType RType.heart (reactToggle 1 RType.heart [⟨1, RType.heart⟩]) + 1 =
      countType RType.heart [⟨1, RType.heart⟩] := by
  have hinv : reactionInv [(⟨1, RType.heart⟩ : Reaction)] := by
    intro v
    by_cases hv : 1 = v <;> simp [userReactions, List.filter_cons, hv]
  exact (confession_react_toggle [⟨1, RType.heart⟩] 1 RType.heart hinv).1
    (by simp)

/-! ## Confession reads (`routes/confessions.js`, `GET /` and `GET /:id`) -/

/-- The fields of a confession document read by the list query, the access
check and the formatter (`models/Confession.js`). -/
structure Confession where
  id : Nat
  userId : Nat
  content : String
  category : String
  college : String
  isAnonymous : Bool
  isReported : Bool
  reactions : List Reaction
  createdAt : Nat
deriving DecidableEq, Repr

/-- The requesting user as resolved by `User.findById(req.user.userId)`. -/
structure CUser where
  id : Nat
  college : String
deriving DecidableEq, Repr

/-- The Mongo query built by `GET /confessions/`:
`{ college: currentUser.college, isReported: false }`, plus
`{ category }` when the requested category is not `'all'`. -/
def confessionListQuery (college category : String) (cs : List Confession) :
    List Confession :=
  cs.filter (fun c => c.college == college && c.isReported == false &&
    (category == "all" || c.category == category))

/-- Handler `GET /confessions/`: query, sort by `createdAt` descending, then
`skip((page-1)*limit)` and `limit(limit)`. -/
def getConfessions (currentUser : CUser) (cs : List Confession)
    (category : String) (page limit : Nat) : List Confession :=
  (((confessionListQuery currentUser.college category cs).mergeSort
      (fun a b => decide (b.createdAt ≤ a.createdAt))).drop
    ((page - 1) * limit)).take limit

/-- Handler `GET /confessions/:id`: look the confession up by id, answer 404 when it
is absent, 403 with no confession data when its college differs from the
caller's, and 200 with the confession otherwise. -/
def getConfessionById (currentUser : CUser) (cs : List Confession)
    (cid : Nat) : Nat × Option Confession :=
  match cs.find? (fun c => c.id == cid) with
  | none => (404, none)
  | some c =>
    if !(c.college == currentUser.college) then (403, none)
    else (200, some c)

/-- Claim C5: every confession in the list response has the caller's college,
and fetching a single confession of another college yields status 403 with no
confession data. -/
theorem confession_college_scoping (currentUser : CUser)
    (cs : List Confession) (category : String) (page limit : Nat) (cid : Nat) :
    (∀ c ∈ getConfessions currentUser cs category page limit,
      c.college = currentUser.college) ∧
    (∀ c, cs.find? (fun c' => c'.id == cid) = some c →
      c.college ≠ currentUser.college →
      getConfessionById currentUser cs cid = (403, none)) := by
  constructor
  · intro c hc
    have h1 : c ∈ (confessionListQuery currentUser.college category cs).mergeSort
        (fun a b => decide (b.createdAt ≤ a.createdAt)) :=
      List.mem_of_mem_drop (List.mem_of_mem_take hc)
    have h2 : c ∈ confessionListQuery currentUser.college category cs :=
      List.mem_mergeSort.mp h1
    have h3 := (List.mem_filter.mp h2).2
    have h4 := (Bool.and_eq_true_iff.mp ((Bool.and_eq_true_iff.mp h3).1)).1
    exact eq_of_beq h4
  · intro c hfind hcol
    simp only [getConfessionById, hfind]
    rw [if_pos]
    simp only [Bool.not_eq_true']
    exact beq_eq_false_iff_ne.mpr hcol

/-- Concrete witness for `confession_college_scoping`: a caller from college
"XYZ" asking for a confession of college "ABC" gets 403 and no data. -/
theorem confession_college_scoping_witness :
    getConfessionById ⟨2, "XYZ"⟩
      [⟨5, 1, "test", "general", "ABC", true, false, [], 10⟩] 5 = (403, none) :=
  (confession_college_scoping ⟨2, "XYZ"⟩
      [⟨5, 1, "test", "general", "ABC", true, false, [], 10⟩] "all" 1 20 5).2
    ⟨5, 1, "test", "general", "ABC", true, false, [], 10⟩ (by decide) (by decide)

/-! ## Chat (`routes/chat.js`, `POST /matches/:matchId/messages`) -/

/-- JavaScript `String.prototype.trim`, embedded over the character list
(whitespace stripped from both ends). -/
def jsTrim (s : String) : String :=
  ⟨((s.data.dropWhile Char.isWhitespace).reverse.dropWhile
      Char.isWhitespace).reverse⟩

/-- Matchable status per `matchSchema` (`enum: ['active', 'unmatched',
'blocked']`). -/
inductive MatchStatus
  | active
  | unmatched
  | blocked
deriving DecidableEq, Repr

/-- The `lastMessage` cache embedded in a match document. -/
structure LastMessage where
  content : String
  sender : Nat
  timestamp : Nat
deriving DecidableEq, Repr

/-- A match document (`models/Match.js`). -/
structure MatchRec where
  id : Nat
  user1 : Nat
  user2 : Nat
  status : MatchStatus
  matchedAt : Nat
  lastActivity : Nat
  lastMessage : Option LastMessage
deriving DecidableEq, Repr

/-- A message document (`models/Message.js`); `matchId` embeds the `match`
reference field. -/
structure Message where
  id : Nat
  matchId : Nat
  sender : Nat
  content : String
  type : String
  replyTo : Option Nat
  readBy : List Nat
  createdAt : Nat
deriving DecidableEq, Repr

/-- The store state touched by the chat handlers. -/
structure ChatState where
  «matches» : List MatchRec
  messages : List Message
  nextMessageId : Nat
deriving DecidableEq, Repr

/-- Operation `findOne` + `save` (resp. `findByIdAndUpdate`): update the first list
element satisfying the query. -/
def updateFirst {α : Type _} (p : α → Bool) (f : α → α) : List α → List α
  | [] => []
  | x :: xs => if p x then f x :: xs else x :: updateFirst p f xs

/-- Handler `POST /chat/matches/:matchId/messages`: reject blank content with 400,
then `Match.findOne({_id: matchId, $or: [{user1: userId}, {user2: userId}]})`;
404 when absent; otherwise create the message (sender pre-added to `readBy`)
and update the match's `lastMessage` cache and `lastActivity`. -/
def sendMessage (st : ChatState) (userId matchId : Nat) (content : String)
    (type : String) (replyTo : Option Nat) (now : Nat) : Nat × ChatState :=
  if jsTrim content == "" then (400, st)
  else
    match st.«matches».find? (fun m => m.id == matchId &&
        (m.user1 == userId || m.user2 == userId)) with
    | none => (404, st)
    | some _ =>
      let msg : Message :=
        ⟨st.nextMessageId, matchId, userId, jsTrim content, type, replyTo,
          [userId], now⟩
      (200,
        ⟨updateFirst (fun m => m.id == matchId)
            (fun m => { m with
              lastMessage := some ⟨jsTrim content, userId, now⟩,
              lastActivity := now }) st.«matches»,
          st.messages ++ [msg],
          st.nextMessageId + 1⟩)

/-- Claim C6: a caller who is neither `user1` nor `user2` of any match with
the requested id gets 404 from the send-message endpoint, and the store (both
messages and match records, hence the cached last message and last-activity
timestamp) is unchanged. -/
theorem chat_send_nonparticipant (st : ChatState) (userId matchId : Nat)
    (content type : String) (replyTo : Option Nat) (now : Nat)
    (hcontent : jsTrim content ≠ "")
    (hnotpart : ∀ m ∈ st.«matches», m.id = matchId →
      m.user1 ≠ userId ∧ m.user2 ≠ userId) :
    sendMessage st userId matchId content type replyTo now = (404, st) := by
  have hfind : st.«matches».find? (fun m => m.id == matchId &&
      (m.user1 == userId || m.user2 == userId)) = none := by
    refine List.find?_eq_none.mpr ?_
    intro m hm
    by_cases hid : m.id = matchId
    · obtain ⟨h1, h2⟩ := hnotpart m hm hid
      simp [h1, h2]
    · simp [hid]
  have hbeq : (jsTrim content == "") = false := beq_eq_false_iff_ne.mpr hcontent
  simp [sendMessage, hbeq, hfind]

/-- Concrete witness for `chat_send_nonparticipant`: user 12 tries to send
"hi" on a match between users 10 and 11. -/
theorem chat_send_nonparticipant_witness :
    sendMessage ⟨[⟨1, 10, 11, MatchStatus.active, 0, 0, none⟩], [], 0⟩
      12 1 "hi" "text" none 5 =
    (404, ⟨[⟨1, 10, 11, MatchStatus.active, 0, 0, none⟩], [], 0⟩) :=
  chat_send_nonparticipant ⟨[⟨1, 10, 11, MatchStatus.active, 0, 0, none⟩], [], 0⟩
    12 1 "hi" "text" none 5 (by decide) (by decide)

/-! ## Auth tokens (`routes/auth.js`: `POST /reset-password/:token`,
`GET /verify-email/:token`, `POST /forgot-password`) -/

/-- The account fields of a user document read by the token endpoints
(`models/User.js`). The stored password hash is abstracted to the raw
string (hashing is injective glue irrelevant to token handling). -/
structure AUser where
  id : Nat
  email : String
  password : String
  isVerified : Bool
  verificationToken : Option String
  verificationTokenExpires : Option Nat
  resetPasswordToken : Option String
  resetPasswordExpires : Option Nat
deriving DecidableEq, Repr

/-- Mongo `{ field: { $gt: Date.now() } }` on an optional date field: false
when the field is absent. -/
def afterNow (e : Option Nat) (now : Nat) : Bool :=
  match e with
  | some t => now < t
  | none => false

/-- Handler `POST /auth/reset-password/:token`: reject short passwords with 400,
`findOne({resetPasswordToken: token, resetPasswordExpires: {$gt: now}})`
(400 when absent), then store the new password and clear the token and its
expiry on that user. -/
def resetPasswordSubmit (users : List AUser) (token password : String)
    (now : Nat) : Nat × List AUser :=
  if password.length < 6 then (400, users)
  else
    match users.find? (fun u => u.resetPasswordToken == some token &&
        afterNow u.resetPasswordExpires now) with
    | none => (400, users)
    | some _ =>
      (200, updateFirst (fun u => u.resetPasswordToken == some token &&
          afterNow u.resetPasswordExpires now)
        (fun u =>
          { u with
            password := password
            resetPasswordToken := none
            resetPasswordExpires := none }) users)

/-- Handler `GET /auth/verify-email/:token`:
`findOne({verificationToken: token, verificationTokenExpires: {$gt: now}})`
(400 when absent), then set `isVerified` and clear the token and its
expiry. -/
def verifyEmail (users : List AUser) (token : String) (now : Nat) :
    Nat × List AUser :=
  match users.find? (fun u => u.verificationToken == some token &&
      afterNow u.verificationTokenExpires now) with
  | none => (400, users)
  | some _ =>
    (200, updateFirst (fun u => u.verificationToken == some token &&
        afterNow u.verificationTokenExpires now)
      (fun u =>
        { u with
          isVerified := true
          verificationToken := none
          verificationTokenExpires := none }) users)

/-- If a list holds at most one element satisfying `q`, the query predicate
`p` entails `q`, and the updater erases `q`, then updating the first
`p`-element (when one exists) leaves no `q`-element at all. -/
lemma updateFirst_clears {α : Type _} {p q : α → Bool} {f : α → α}
    (hpq : ∀ u, p u = true → q u = true)
    (hclear : ∀ u, q (f u) = false) :
    ∀ l : List α, l.any p = true → l.countP q ≤ 1 →
      ∀ v ∈ updateFirst p f l, q v = false := by
  intro l
  induction l with
  | nil => intro hany; simp at hany
  | cons x xs ih =>
    intro hany hcount v hv
    by_cases hpx : p x = true
    · rw [updateFirst, if_pos hpx] at hv
      rcases List.mem_cons.mp hv with hvf | hvxs
      · rw [hvf]; exact hclear x
      · have hqx := hpq x hpx
        rw [List.countP_cons, hqx, if_pos rfl] at hcount
        have hzero : xs.countP q = 0 := by omega
        have := List.countP_eq_zero.mp hzero
        exact Bool.eq_false_iff.mpr (fun hq => this v hvxs hq)
    · rw [updateFirst, if_neg hpx] at hv
      have hanyxs : xs.any p = true := by
        rcases List.any_eq_true.mp hany with ⟨w, hw, hpw⟩
        rcases List.mem_cons.mp hw with hwx | hwxs
        · exact absurd (hwx ▸ hpw) hpx
        · exact List.any_eq_true.mpr ⟨w, hwxs, hpw⟩
      have hqxs : 1 ≤ xs.countP q := by
        rcases List.any_eq_true.mp hanyxs with ⟨w, hw, hpw⟩
        calc 1 = [w].countP q := by simp [hpq w hpw]
        _ ≤ xs.countP q := by
            have : [w].Sublist xs := List.singleton_sublist.mpr hw
            simpa using this.countP_le q
      rcases List.mem_cons.mp hv with hvx | hvxs
      · subst hvx
        by_contra hq
        have hqx := Bool.of_not_eq_false hq
        rw [List.countP_cons, hqx, if_pos rfl] at hcount
        omega
      · refine ih hanyxs ?_ v hvxs
        rw [List.countP_cons] at hcount
        omega

/-- Claim C7, reset-password half and verify-email half: when at most one
user holds token `t` (for the respective field), a successful consumption of
`t` clears it, so a second call with the same `t` answers 400 and leaves the
store unchanged. -/
theorem auth_token_single_use (users : List AUser) (t : String)
    (password password' : String) (now now' now'' : Nat)
    (hreset : users.countP (fun u => u.resetPasswordToken == some t) ≤ 1)
    (hverify : users.countP (fun u => u.verificationToken == some t) ≤ 1) :
    (∀ users', resetPasswordSubmit users t password now = (200, users') →
      resetPasswordSubmit users' t password' now' = (400, users')) ∧
    (∀ users', verifyEmail users t now = (200, users') →
      verifyEmail users' t now'' = (400, users')) := by
  constructor
  · intro users' h200
    by_cases hlen : password.length < 6
    · rw [resetPasswordSubmit, if_pos hlen] at h200
      cases h200
    · rw [resetPasswordSubmit, if_neg hlen] at h200
      cases hfind : users.find? (fun u => u.resetPasswordToken == some t &&
          afterNow u.resetPasswordExpires now) with
      | none => rw [hfind] at h200; cases h200
      | some u₀ =>
        rw [hfind] at h200
        have husers' : users' = updateFirst
            (fun u => u.resetPasswordToken == some t &&
              afterNow u.resetPasswordExpires now)
            (fun u =>
              { u with
                password := password
                resetPasswordToken := none
                resetPasswordExpires := none })
            users := by
          simpa using (congrArg Prod.snd h200).symm
        have hclean : ∀ v ∈ users',
            (v.resetPasswordToken == some t) = false := by
          rw [husers']
          refine updateFirst_clears (fun u hp => (Bool.and_eq_true_iff.mp hp).1)
            (fun u => by simp) users ?_ hreset
          have hpu := List.find?_some hfind
          exact List.any_eq_true.mpr
            ⟨u₀, List.mem_of_find?_eq_some hfind, hpu⟩
        have hfind' : users'.find? (fun u => u.resetPasswordToken == some t &&
            afterNow u.resetPasswordExpires now') = none := by
          refine List.find?_eq_none.mpr (fun v hv => ?_)
          simp [hclean v hv]
        by_cases hlen' : password'.length < 6
        · rw [resetPasswordSubmit, if_pos hlen']
        · rw [resetPasswordSubmit, if_neg hlen', hfind']
  · intro users' h200
    cases hfind : users.find? (fun u => u.verificationToken == some t &&
        afterNow u.verificationTokenExpires now) with
    | none => rw [verifyEmail, hfind] at h200; cases h200
    | some u₀ =>
      rw [verifyEmail, hfind] at h200
      have husers' : users' = updateFirst
          (fun u => u.verificationToken == some t &&
            afterNow u.verificationTokenExpires now)
          (fun u =>
            { u with
              isVerified := true
              verificationToken := none
              verificationTokenExpires := none })
          users := by
        simpa using (congrArg Prod.snd h200).symm
      have hclean : ∀ v ∈ users',
          (v.verificationToken == some t) = false := by
        rw [husers']
        refine updateFirst_clears (fun u hp => (Bool.and_eq_true_iff.mp hp).1)
          (fun u => by simp) users ?_ hverify
        have hpu := List.find?_some hfind
        exact List.any_eq_true.mpr
          ⟨u₀, List.mem_of_find?_eq_some hfind, hpu⟩
      have hfind' : users'.find? (fun u => u.verificationToken == some t &&
          afterNow u.verificationTokenExpires now'') = none := by
        refine List.find?_eq_none.mpr (fun v hv => ?_)
        simp [hclean v hv]
      rw [verifyEmail, hfind']

/-- Concrete witness for `auth_token_single_use`: user 1's reset token "tok"
is consumed at time 50; replaying it at time 60 fails and changes nothing. -/
theorem auth_token_single_use_witness :
    resetPasswordSubmit
      [⟨1, "a@college.edu", "newpass1", false, none, none, none, none⟩]
      "tok" "newpass2" 60 =
    (400, [⟨1, "a@college.edu", "newpass1", false, none, none, none, none⟩]) :=
  (auth_token_single_use
      [⟨1, "a@college.edu", "old", false, none, none, some "tok", some 100⟩]
      "tok" "newpass1" "newpass2" 50 60 0 (by decide) (by decide)).1
    [⟨1, "a@college.edu", "newpass1", false, none, none, none, none⟩]
    (by decide)

/-- Response envelope `{ success, message }` together with the HTTP status. -/
structure Envelope where
  status : Nat
  success : Bool
  message : String
deriving DecidableEq, Repr

/-- The one message `POST /auth/forgot-password` sends on both the
known-email and the unknown-email path. -/
def forgotPasswordMessage : String :=
  "If an account exists with this email, you will receive password reset instructions."

/-- Handler `POST /auth/forgot-password`: 400 when no email was supplied; otherwise
look the account up by lowercased email; answer the same success envelope
whether or not it exists, storing a fresh reset token (1h expiry) only when
it does. -/
def forgotPassword (users : List AUser) (email : Option String)
    (resetToken : String) (now : Nat) : Envelope × List AUser :=
  match email with
  | none => (⟨400, false, "Email is required"⟩, users)
  | some e =>
    if e == "" then (⟨400, false, "Email is required"⟩, users)
    else
      match users.find? (fun u => u.email == e.toLower) with
      | none => (⟨200, true, forgotPasswordMessage⟩, users)
      | some _ =>
        (⟨200, true, forgotPasswordMessage⟩,
          updateFirst (fun u => u.email == e.toLower)
            (fun u =>
              { u with
                resetPasswordToken := some resetToken
                resetPasswordExpires := some (now + 3600000) }) users)

/-- Claim C10: the response envelope of the forgot-password endpoint does not
depend on the user store at all — in particular two runs that differ only in
whether an account with the email exists return the identical envelope. -/
theorem forgot_password_no_account_probe (users₁ users₂ : List AUser)
    (email : Option String) (tok₁ tok₂ : String) (now₁ now₂ : Nat) :
    (forgotPassword users₁ email tok₁ now₁).1 =
    (forgotPassword users₂ email tok₂ now₂).1 := by
  cases email with
  | none => rfl
  | some e =>
    cases h1 : users₁.find? (fun u => u.email == e.toLower) <;>
      cases h2 : users₂.find? (fun u => u.email == e.toLower) <;>
      cases he : e == "" <;>
      simp [forgotPassword, he, h1, h2]

/-! ## Photo management (`routes/users.js` part of the auth/users router:
`POST /upload-photo`, `DELETE /photo/:publicId`, `PUT /photo/:publicId/main`) -/

/-- One embedded photo document on a user (`models/User.js`): `likes` is the
liker array, whose entries may be `null`/`undefined` in the store (the like
handler filters such entries out), hence `Option`; `likeCount` is the
redundant stored counter. -/
structure Photo where
  url : String
  publicId : String
  isMain : Bool
  likes : List (Option String)
  likeCount : Nat
deriving DecidableEq, Repr

/-- Handler `POST /users/upload-photo`: reject with 400 when the user already has 6
or more photos, otherwise push `{url, publicId, isMain: photos.length === 0}`
(likes and counter start at their schema defaults). -/
def uploadPhoto (photos : List Photo) (url publicId : String) :
    Nat × List Photo :=
  if photos.length ≥ 6 then (400, photos)
  else (200, photos ++ [⟨url, publicId, photos.length == 0, [], 0⟩])

/-- Assignment `user.photos[0].isMain = true` after a deletion that removed the main
photo. -/
def setHeadMain : List Photo → List Photo
  | [] => []
  | p :: rest => { p with isMain := true } :: rest

/-- Handler `DELETE /users/photo/:publicId`: 404 when no photo carries the publicId;
otherwise splice the photo out at its `findIndex`, and if photos remain but
none is main, promote the first one. -/
def deletePhoto (photos : List Photo) (publicId : String) : Nat × List Photo :=
  if photos.any (fun p => p.publicId == publicId) then
    let remaining := photos.eraseP (fun p => p.publicId == publicId)
    if remaining.length > 0 && !(remaining.any (fun p => p.isMain)) then
      (200, setHeadMain remaining)
    else (200, remaining)
  else (404, photos)

/-- Assignment `user.photos[photoIndex].isMain = true` at the `findIndex` position. -/
def markFirstMain (publicId : String) : List Photo → List Photo
  | [] => []
  | p :: rest =>
    if p.publicId == publicId then { p with isMain := true } :: rest
    else p :: markFirstMain publicId rest

/-- Handler `PUT /users/photo/:publicId/main`: 404 when no photo carries the
publicId; otherwise set `isMain = false` on every photo and then `true` on
the photo found by `findIndex`. -/
def setMainPhoto (photos : List Photo) (publicId : String) :
    Nat × List Photo :=
  if photos.any (fun p => p.publicId == publicId) then
    (200, markFirstMain publicId
      (photos.map (fun p => { p with isMain := false })))
  else (404, photos)

/-- Number of photos flagged as main. -/
def mainCount (photos : List Photo) : Nat :=
  (photos.filter (fun p => p.isMain)).length

/-- The spec invariant: exactly one main photo whenever the list is
non-empty. -/
def mainInv (photos : List Photo) : Prop :=
  photos ≠ [] → mainCount photos = 1

lemma mainCount_append (l₁ l₂ : List Photo) :
    mainCount (l₁ ++ l₂) = mainCount l₁ + mainCount l₂ := by
  simp [mainCount, List.filter_append]

lemma mainCount_eq_zero_iff {l : List Photo} :
    mainCount l = 0 ↔ (l.any (fun p => p.isMain)) = false := by
  constructor
  · intro h
    refine List.any_eq_false.mpr (fun p hp => ?_)
    have := List.filter_eq_nil_iff.mp (List.length_eq_zero.mp h) p hp
    simpa using this
  · intro h
    refine List.length_eq_zero.mpr (List.filter_eq_nil_iff.mpr ?_)
    intro p hp
    simpa using List.any_eq_false.mp h p hp

lemma mainCount_setHeadMain {l : List Photo} (hne : l ≠ [])
    (hzero : mainCount l = 0) : mainCount (setHeadMain l) = 1 := by
  cases l with
  | nil => exact absurd rfl hne
  | cons p rest =>
    have hnil : List.filter (fun q => q.isMain) (p :: rest) = [] :=
      List.length_eq_zero.mp hzero
    rw [List.filter_cons] at hnil
    by_cases hp : p.isMain = true
    · rw [if_pos hp] at hnil; cases hnil
    · rw [if_neg hp] at hnil
      rw [setHeadMain]
      simp [mainCount, List.filter_cons, hnil]

lemma mainCount_map_clear (l : List Photo) :
    mainCount (l.map (fun p => { p with isMain := false })) = 0 := by
  induction l with
  | nil => rfl
  | cons p rest ih => simp [mainCount, List.filter_cons] at ih ⊢

lemma mainCount_markFirstMain {l : List Photo} {publicId : String}
    (hzero : mainCount l = 0)
    (hany : (l.any (fun p => p.publicId == publicId)) = true) :
    mainCount (markFirstMain publicId l) = 1 := by
  induction l with
  | nil => simp at hany
  | cons p rest ih =>
    have hnil : List.filter (fun q => q.isMain) (p :: rest) = [] :=
      List.length_eq_zero.mp hzero
    rw [List.filter_cons] at hnil
    by_cases hmain : p.isMain = true
    · rw [if_pos hmain] at hnil; cases hnil
    · rw [if_neg hmain] at hnil
      have hzero' : mainCount rest = 0 := by simp [mainCount, hnil]
      by_cases hpub : (p.publicId == publicId) = true
      · rw [markFirstMain, if_pos hpub]
        simp [mainCount, List.filter_cons, hnil]
      · rw [markFirstMain, if_neg hpub]
        have hany' : (rest.any (fun q => q.publicId == publicId)) = true := by
          rcases List.any_eq_true.mp hany with ⟨q, hq, hqp⟩
          rcases List.mem_cons.mp hq with rfl | hqr
          · exact absurd hqp hpub
          · exact List.any_eq_true.mpr ⟨q, hqr, hqp⟩
        have := ih hzero' hany'
        simpa [mainCount, List.filter_cons, hmain] using this

/-- Claim C8: the exactly-one-main-photo invariant is preserved by photo
upload (and the uploaded photo is main exactly when it is the first one), by
photo deletion, and by set-main. -/
theorem photo_main_invariant (photos : List Photo) (url publicId : String)
    (hinv : mainInv photos) :
    mainInv (uploadPhoto photos url publicId).2 ∧
    mainInv (deletePhoto photos publicId).2 ∧
    mainInv (setMainPhoto photos publicId).2 ∧
    (photos.length < 6 →
      (uploadPhoto photos url publicId).2 =
        photos ++ [⟨url, publicId, photos.length == 0, [], 0⟩]) := by
  refine ⟨?_, ?_, ?_, ?_⟩
  · -- upload preserves the invariant
    rw [uploadPhoto]
    by_cases hcap : photos.length ≥ 6
    · rw [if_pos hcap]; exact hinv
    · rw [if_neg hcap]
      intro _
      rw [mainCount_append]
      cases photos with
      | nil => simp [mainCount, List.filter_cons]
      | cons p rest =>
        have h1 : mainCount (p :: rest) = 1 := hinv (by simp)
        have h2 : mainCount [(⟨url, publicId, (p :: rest).length == 0, [], 0⟩ :
            Photo)] = 0 := by
          simp [mainCount, List.filter_cons]
        rw [h1, h2]
  · -- delete preserves the invariant
    rw [deletePhoto]
    by_cases hany : (photos.any (fun p => p.publicId == publicId)) = true
    · rw [if_pos hany]
      have hne : photos ≠ [] := by
        rcases List.any_eq_true.mp hany with ⟨a, hmem, -⟩
        exact List.ne_nil_of_mem hmem
      have hone : mainCount photos = 1 := hinv hne
      have hle : mainCount (photos.eraseP (fun p => p.publicId == publicId))
          ≤ 1 := by
        have hsub := (List.eraseP_sublist
            (p := fun p => p.publicId == publicId) photos).filter
          (fun p => p.isMain)
        calc mainCount (photos.eraseP (fun p => p.publicId == publicId))
            ≤ mainCount photos := hsub.length_le
        _ = 1 := hone
      by_cases hcond : (decide ((photos.eraseP
            (fun p => p.publicId == publicId)).length > 0) &&
          !((photos.eraseP (fun p => p.publicId == publicId)).any
            (fun p => p.isMain))) = true
      · rw [if_pos hcond]
        obtain ⟨hlen, hnomain⟩ := Bool.and_eq_true_iff.mp hcond
        have hzero : mainCount (photos.eraseP
            (fun p => p.publicId == publicId)) = 0 :=
          mainCount_eq_zero_iff.mpr (by simpa using hnomain)
        intro _
        refine mainCount_setHeadMain ?_ hzero
        intro hnil
        rw [hnil] at hlen
        simp at hlen
      · rw [if_neg (by simpa using hcond)]
        intro hne'
        have hne'' : photos.eraseP (fun p => p.publicId == publicId) ≠ [] := hne'
        have hlen : decide ((photos.eraseP
            (fun p => p.publicId == publicId)).length > 0) = true := by
          cases h : (photos.eraseP (fun p => p.publicId == publicId)) with
          | nil => exact absurd h hne''
          | cons x xs => simp [h]
        have hanymain : (photos.eraseP (fun p => p.publicId == publicId)).any
            (fun p => p.isMain) = true := by
          by_contra hN
          have hfalse : (photos.eraseP (fun p => p.publicId == publicId)).any
              (fun p => p.isMain) = false := Bool.eq_false_iff.mpr hN
          apply hcond
          rw [hlen, hfalse]
          rfl
        have hpos : 1 ≤ mainCount (photos.eraseP
            (fun p => p.publicId == publicId)) := by
          rcases List.any_eq_true.mp hanymain with ⟨q, hq, hqm⟩
          have hsub : List.Sublist [q]
              (photos.eraseP (fun p => p.publicId == publicId)) :=
            List.singleton_sublist.mpr hq
          have hq1 : mainCount [q] ≤ mainCount
              (photos.eraseP (fun p => p.publicId == publicId)) := by
            have := hsub.filter (fun p => p.isMain)
            exact this.length_le
          simpa [mainCount, List.filter_cons, hqm] using hq1
        exact le_antisymm hle hpos
    · rw [if_neg hany]; exact hinv
  · -- set-main preserves the invariant
    rw [setMainPhoto]
    by_cases hany : (photos.any (fun p => p.publicId == publicId)) = true
    · rw [if_pos hany]
      intro _
      refine mainCount_markFirstMain (mainCount_map_clear photos) ?_
      rcases List.any_eq_true.mp hany with ⟨q, hq, hqp⟩
      exact List.any_eq_true.mpr
        ⟨{ q with isMain := false }, List.mem_map_of_mem _ hq, hqp⟩
    · rw [if_neg hany]; exact hinv
  · -- the pushed photo is main exactly when it is the first
    intro hlt
    rw [uploadPhoto, if_neg (by omega)]

/-- Concrete witness for `photo_main_invariant`: the first upload into an
empty photo list is flagged main. -/
theorem photo_main_invariant_witness :
    (uploadPhoto [] "u1" "p1").2 = [⟨"u1", "p1", true, [], 0⟩] :=
  (photo_main_invariant [] "u1" "p1" (fun h => absurd rfl h)).2.2.2
    (by decide)

/-- Claim C9: a user with 6 or more photos gets 400 and an unchanged list
from `POST /upload-photo`, and the endpoint never produces a list longer
than `max photos.length 6`. -/
theorem photo_upload_cap (photos : List Photo) (url publicId : String) :
    (6 ≤ photos.length → uploadPhoto photos url publicId = (400, photos)) ∧
    (uploadPhoto photos url publicId).2.length ≤ max photos.length 6 := by
  constructor
  · intro h
    rw [uploadPhoto, if_pos h]
  · rw [uploadPhoto]
    by_cases h : photos.length ≥ 6
    · rw [if_pos h]; simp
    · rw [if_neg h]
      simp only [List.length_append, List.length_cons, List.length_nil]
      omega

/-- Concrete witness for `photo_upload_cap`: a user with six photos cannot
upload a seventh. -/
theorem photo_upload_cap_witness :
    uploadPhoto [⟨"a", "1", true, [], 0⟩, ⟨"b", "2", false, [], 0⟩,
      ⟨"c", "3", false, [], 0⟩, ⟨"d", "4", false, [], 0⟩,
      ⟨"e", "5", false, [], 0⟩, ⟨"f", "6", false, [], 0⟩] "g" "7" =
    (400, [⟨"a", "1", true, [], 0⟩, ⟨"b", "2", false, [], 0⟩,
      ⟨"c", "3", false, [], 0⟩, ⟨"d", "4", false, [], 0⟩,
      ⟨"e", "5", false, [], 0⟩, ⟨"f", "6", false, [], 0⟩]) :=
  (photo_upload_cap _ "g" "7").1 (by decide)

/-! ## Photo like toggle (`routes/photos.js`, `POST /like`) -/

/-- The payload of the JWT issued by `generateToken` in `routes/auth.js`:
`jwt.sign({ userId }, ...)` — its only identity claim is `userId`. -/
structure TokenPayload where
  userId : String
deriving DecidableEq, Repr

/-- Value of `req.user.id` as read by `POST /photos/like`: the auth middleware in
`routes/photos.js` stores the decoded payload itself in `req.user`
(`req.user = decoded`), and the payload has a `userId` property but no `id`
property, so the property read evaluates to `undefined`. -/
def reqUserId (_decoded : TokenPayload) : Option String := none

/-- JavaScript strict equality between a string (an ObjectId rendered by
`toString()`) and a possibly-undefined value: `undefined` equals no
string. -/
def strictEqStr (s : String) (v : Option String) : Bool :=
  match v with
  | some t => s == t
  | none => false

/-- The response payload of `POST /photos/like`. -/
structure LikeResponse where
  status : Nat
  likeCount : Nat
  isLiked : Bool
deriving DecidableEq, Repr

/-- Handler `POST /photos/like` acting on the located photo: drop `null` entries
from `likes`, test membership of `currentUserId` by
`userId.toString() === currentUserId`, then either remove the user's like
and decrement `likeCount` (floored at 0 — `Math.max(0, c - 1)` is truncated
subtraction) or push `currentUserId` and increment; the response reports
the final `photo.likes.includes(currentUserId)` and the counter. -/
def photoLikeToggle (currentUserId : Option String) (photo : Photo) :
    Photo × LikeResponse :=
  let likes0 := photo.likes.filter (fun uid => uid.isSome)
  let wasLiked := likes0.any (fun uid =>
    match uid with
    | some u => strictEqStr u currentUserId
    | none => false)
  if wasLiked then
    let photo' := { photo with
      likes := likes0.filter (fun uid =>
        match uid with
        | some u => !(strictEqStr u currentUserId)
        | none => false)
      likeCount := photo.likeCount - 1 }
    (photo', ⟨200, photo'.likeCount, photo'.likes.contains currentUserId⟩)
  else
    let photo' := { photo with
      likes := likes0 ++ [currentUserId]
      likeCount := photo.likeCount + 1 }
    (photo', ⟨200, photo'.likeCount, photo'.likes.contains currentUserId⟩)

/-- Claim C4 fails on the code: since `reqUserId` yields `undefined`, the
membership test is false on every call, so toggling twice pushes two likes
and reports `isLiked = true` with `likeCount = 2` instead of restoring
`isLiked = false` with the original count 0. Evaluated at a fresh photo and
an authenticated user "alice". -/
theorem photo_like_double_toggle_bug :
    (photoLikeToggle (reqUserId ⟨"alice"⟩)
        (photoLikeToggle (reqUserId ⟨"alice"⟩)
          ⟨"https://x/p.jpg", "pid1", true, [], 0⟩).1).2 =
      ⟨200, 2, true⟩ ∧
    (photoLikeToggle (reqUserId ⟨"alice"⟩)
        (photoLikeToggle (reqUserId ⟨"alice"⟩)
          ⟨"https://x/p.jpg", "pid1", true, [], 0⟩).1).1.likeCount = 2 := by
  decide



/-! ## Swipe & match engine (`POST /matches/swipe`)

The matches router is staged appended to `src/start-server.bat`; its swipe
handler (lines 131-290 there) performs validation, a swipe upsert via
`findOne` + in-place `save`, the reciprocal-like check, match creation with
two `match`-type notifications for a fresh mutual like, and — in the `else`
branch of the `action === 'like' || action === 'superlike'` test — a
`like`-type notification to the target, which therefore fires exactly on a
`pass` (an unreciprocated like creates no notification). -/

/-- Swipe actions per `models/Swipe.js`
(`enum: ['like', 'pass', 'superlike']`). -/
inductive SwipeAction
  | like
  | pass
  | superlike
deriving DecidableEq, Repr

/-- A swipe document (`models/Swipe.js`); the compound index makes
`(swiper, swiped)` unique. -/
structure Swipe where
  swiper : Nat
  swiped : Nat
  action : SwipeAction
deriving DecidableEq, Repr

/-- Notification types per `models/Notification.js`
(`enum: ['match', 'like', 'message', 'confession', 'comment']`). -/
inductive NotifType
  | «match»
  | like
  | message
  | confession
  | comment
deriving DecidableEq, Repr

/-- The notification fields the swipe handler writes that the claims are
about (`recipient`, `sender`, `type`; the title, message and data blob are
omitted). -/
structure Notif where
  recipient : Nat
  sender : Option Nat
  type : NotifType
deriving DecidableEq, Repr

/-- The store state the swipe handler touches. -/
structure MState where
  users : List Nat
  swipes : List Swipe
  «matches» : List MatchRec
  notifs : List Notif
  nextMatchId : Nat
deriving DecidableEq, Repr

/-- Test `action === 'like' || action === 'superlike'`, also the embedding
of the reciprocal query's `action: { $in: ['like', 'superlike'] }`. -/
def isLikeAction : SwipeAction → Bool
  | .like => true
  | .superlike => true
  | .pass => false

/-- The swipe upsert of the handler (`start-server.bat` lines 171-191):
`Swipe.findOne({swiper, swiped})`; when a record exists its `action` is
overwritten and it is saved in place (the first record matching the query,
which the unique index makes the only one), otherwise a fresh record is
inserted. -/
def swipeUpsert (swiperId targetUserId : Nat) (action : SwipeAction)
    (swipes : List Swipe) : List Swipe :=
  if swipes.any (fun s => s.swiper == swiperId && s.swiped == targetUserId) then
    updateFirst (fun s => s.swiper == swiperId && s.swiped == targetUserId)
      (fun s => { s with action := action }) swipes
  else swipes ++ [⟨swiperId, targetUserId, action⟩]

/-- The existing-match query of the handler:
`Match.findOne({$or: [{user1: swiperId, user2: targetUserId},
{user1: targetUserId, user2: swiperId}], status: 'active'})`. -/
def activeMatchBetween (a b : Nat) (m : MatchRec) : Bool :=
  (m.status == MatchStatus.active) &&
    ((m.user1 == a && m.user2 == b) || (m.user1 == b && m.user2 == a))

/-- The post-upsert phase of the swipe handler (`start-server.bat` lines
195-276): on like/superlike look for a reciprocal like/superlike; when found
and an active match already exists, report it and create nothing; when found
and none exists, create one active match (`user1` the swiper, `user2` the
target) and insert one `match`-type notification for each side; on a
one-sided like create nothing. Otherwise — i.e. exactly on `pass` — the
handler's `else` branch creates a `like`-type notification to the target.
The returned flag is the response's `isMatch`. -/
def swipeMatchPhase (st1 : MState) (swiperId targetUserId : Nat)
    (action : SwipeAction) (now : Nat) : MState × Bool :=
  if isLikeAction action then
    if st1.swipes.any (fun s => s.swiper == targetUserId &&
        s.swiped == swiperId && isLikeAction s.action) then
      if st1.«matches».any (activeMatchBetween swiperId targetUserId) then
        (st1, true)
      else
        ({ st1 with
            «matches» := st1.«matches» ++
              [⟨st1.nextMatchId, swiperId, targetUserId, .active, now, now,
                none⟩]
            notifs := st1.notifs ++
              [⟨swiperId, some targetUserId, .«match»⟩,
                ⟨targetUserId, some swiperId, .«match»⟩]
            nextMatchId := st1.nextMatchId + 1 }, true)
    else (st1, false)
  else
    ({ st1 with notifs := st1.notifs ++
        [⟨targetUserId, some swiperId, .like⟩] }, false)

/-- Handler `POST /matches/swipe` (`start-server.bat` lines 131-290): 400 on
a self-swipe, 404 when the target does not exist, then the swipe upsert
followed by the match/notification phase; the body-shape and enum
validations are outside the embedding (ids and the action arrive typed).
Returns the HTTP status, the new state and the response's `isMatch`. -/
def swipeHandler (st : MState) (swiperId targetUserId : Nat)
    (action : SwipeAction) (now : Nat) : Nat × MState × Bool :=
  if swiperId == targetUserId then (400, st, false)
  else if !(st.users.contains targetUserId) then (404, st, false)
  else
    (200, swipeMatchPhase
      { st with swipes := swipeUpsert swiperId targetUserId action st.swipes }
      swiperId targetUserId action now)

/-- Updating the first `p`-element with a `p`-preserving function does not
change the `p`-count. -/
lemma updateFirst_countP {α : Type _} (p : α → Bool) (f : α → α)
    (hpf : ∀ s, p (f s) = p s) :
    ∀ l : List α, (updateFirst p f l).countP p = l.countP p := by
  intro l
  induction l with
  | nil => rfl
  | cons x xs ih =>
    rw [updateFirst]
    by_cases hpx : p x = true
    · rw [if_pos hpx]
      simp [List.countP_cons, hpf]
    · rw [if_neg hpx]
      simp [List.countP_cons, ih]

/-- Updating the first `p`-element preserves the existence of a `q`-element
when `p` and `q` are disjoint. -/
lemma updateFirst_any_of_disjoint {α : Type _} {p q : α → Bool} {f : α → α}
    (hdisj : ∀ s, p s = true → q s = false) :
    ∀ l : List α, l.any q = true → (updateFirst p f l).any q = true := by
  intro l
  induction l with
  | nil => intro h; simp at h
  | cons x xs ih =>
    intro h
    rw [updateFirst]
    by_cases hqx : q x = true
    · have hpx : p x = false := by
        by_contra hp
        have := hdisj x (Bool.of_not_eq_false hp)
        rw [this] at hqx
        cases hqx
      rw [if_neg (by rw [hpx]; exact Bool.false_ne_true)]
      simp [List.any_cons, hqx]
    · have hxs : xs.any q = true := by
        rcases List.any_eq_true.mp h with ⟨w, hw, hqw⟩
        rcases List.mem_cons.mp hw with rfl | hwxs
        · exact absurd hqw hqx
        · exact List.any_eq_true.mpr ⟨w, hwxs, hqw⟩
      by_cases hpx : p x = true
      · rw [if_pos hpx]
        simp [List.any_cons, hxs]
      · rw [if_neg hpx]
        simp [List.any_cons, ih hxs]

/-- The upsert does not disturb a reciprocal `(b, a)` like when `a ≠ b`. -/
lemma swipeUpsert_any_reciprocal {swipes : List Swipe} {a b : Nat}
    {action : SwipeAction} (hne : a ≠ b)
    (h : swipes.any (fun s => s.swiper == b && s.swiped == a &&
      isLikeAction s.action) = true) :
    (swipeUpsert a b action swipes).any (fun s => s.swiper == b &&
      s.swiped == a && isLikeAction s.action) = true := by
  rw [swipeUpsert]
  by_cases hex : (swipes.any (fun t => t.swiper == a && t.swiped == b)) = true
  · rw [if_pos hex]
    refine updateFirst_any_of_disjoint ?_ swipes h
    intro s hp
    have hsa : s.swiper = a :=
      beq_iff_eq.mp (Bool.and_eq_true_iff.mp hp).1
    have hsb : (s.swiper == b) = false := by
      rw [hsa]
      exact beq_eq_false_iff_ne.mpr hne
    simp [hsb]
  · rw [if_neg hex]
    rcases List.any_eq_true.mp h with ⟨s, hs, hps⟩
    exact List.any_eq_true.mpr ⟨s, List.mem_append_left _ hs, hps⟩

/-- With at most one `(a, b)` record present (the unique index), after the
upsert every `(a, b)` record carries the upserted action. -/
lemma swipeUpsert_pair_action {a b : Nat} (action : SwipeAction) :
    ∀ swipes : List Swipe,
      swipes.countP (fun s => s.swiper == a && s.swiped == b) ≤ 1 →
      ∀ s ∈ swipeUpsert a b action swipes,
        (s.swiper == a && s.swiped == b) = true →
          s.action = action := by
  intro swipes hidx s hs hps
  rw [swipeUpsert] at hs
  by_cases hex : (swipes.any (fun t => t.swiper == a && t.swiped == b)) = true
  · rw [if_pos hex] at hs
    clear hex
    induction swipes with
    | nil => simp [updateFirst] at hs
    | cons x xs ih =>
      rw [updateFirst] at hs
      by_cases hpx : (x.swiper == a && x.swiped == b) = true
      · rw [if_pos hpx] at hs
        rcases List.mem_cons.mp hs with rfl | hsx
        · rfl
        · rw [List.countP_cons, hpx, if_pos rfl] at hidx
          have hz : xs.countP (fun t => t.swiper == a && t.swiped == b) = 0 :=
            by omega
          exact absurd hps (List.countP_eq_zero.mp hz s hsx)
      · rw [if_neg hpx] at hs
        rcases List.mem_cons.mp hs with rfl | hsx
        · exact absurd hps hpx
        · refine ih ?_ hsx
          rw [List.countP_cons] at hidx
          omega
  · rw [if_neg hex] at hs
    rcases List.mem_append.mp hs with hold | hnew
    · refine absurd hps ?_
      have := List.any_eq_false.mp (Bool.eq_false_iff.mpr hex) s hold
      simpa using this
    · rcases List.mem_singleton.mp hnew with rfl
      rfl

/-- With at most one `(a, b)` record present (the unique index), the upsert
leaves exactly one. -/
lemma swipeUpsert_pair_count {swipes : List Swipe} {a b : Nat}
    (action : SwipeAction)
    (h : swipes.countP (fun s => s.swiper == a && s.swiped == b) ≤ 1) :
    (swipeUpsert a b action swipes).countP
      (fun s => s.swiper == a && s.swiped == b) = 1 := by
  rw [swipeUpsert]
  by_cases hex : (swipes.any (fun t => t.swiper == a && t.swiped == b)) = true
  · rw [if_pos hex]
    rw [updateFirst_countP (fun s : Swipe => s.swiper == a && s.swiped == b)
      (fun s : Swipe => { s with action := action }) (fun s => rfl)]
    have hpos : 0 < swipes.countP
        (fun s => s.swiper == a && s.swiped == b) := by
      rcases List.any_eq_true.mp hex with ⟨t, ht, hpt⟩
      exact List.countP_pos_iff.mpr ⟨t, ht, hpt⟩
    omega
  · rw [if_neg hex]
    rw [List.countP_append]
    have hzero : swipes.countP
        (fun s => s.swiper == a && s.swiped == b) = 0 := by
      rw [List.countP_eq_zero]
      intro t ht
      have := List.any_eq_false.mp (Bool.eq_false_iff.mpr hex) t ht
      simpa using this
    rw [hzero]
    simp [List.countP_cons]

lemma swipeMatchPhase_swipes (st1 : MState) (swiperId targetUserId : Nat)
    (action : SwipeAction) (now : Nat) :
    (swipeMatchPhase st1 swiperId targetUserId action now).1.swipes =
      st1.swipes := by
  rw [swipeMatchPhase]
  split
  · split
    · split <;> rfl
    · rfl
  · rfl

lemma swipeMatchPhase_users (st1 : MState) (swiperId targetUserId : Nat)
    (action : SwipeAction) (now : Nat) :
    (swipeMatchPhase st1 swiperId targetUserId action now).1.users =
      st1.users := by
  rw [swipeMatchPhase]
  split
  · split
    · split <;> rfl
    · rfl
  · rfl

/-- When the guard passes, the swipes stored by the handler are exactly the
upserted list, on every branch. -/
lemma swipeHandler_swipes (st : MState) (a b : Nat) (action : SwipeAction)
    (now : Nat) (hne : (a == b) = false) (hb : st.users.contains b = true) :
    (swipeHandler st a b action now).2.1.swipes =
      swipeUpsert a b action st.swipes := by
  rw [swipeHandler, if_neg (by rw [hne]; exact Bool.false_ne_true),
    if_neg (by rw [hb]; exact Bool.false_ne_true)]
  exact swipeMatchPhase_swipes _ a b action now

/-- The handler never touches the user list (on guard-passing inputs). -/
lemma swipeHandler_users (st : MState) (a b : Nat) (action : SwipeAction)
    (now : Nat) (hne : (a == b) = false) (hb : st.users.contains b = true) :
    (swipeHandler st a b action now).2.1.users = st.users := by
  rw [swipeHandler, if_neg (by rw [hne]; exact Bool.false_ne_true),
    if_neg (by rw [hb]; exact Bool.false_ne_true)]
  exact swipeMatchPhase_users _ a b action now

/-- Claim C1: when A likes B while B's like of A is already recorded, the
handler leaves exactly one active match record for the unordered pair
`{A, B}` — whether the match is created by this call or already existed
(idempotent branch), given the pair invariant of at most one active match
beforehand — and, whenever no active match existed yet, it creates exactly
one `match`-type notification for each of A and B (on the idempotent branch
the handler creates nothing, per the code and spec §4.2). The active-match
predicate ignores orientation, so the statement holds regardless of which of
the two liked first. -/
theorem swipe_reciprocal_match (st : MState) (a b now : Nat)
    (hne : a ≠ b) (hb : st.users.contains b = true)
    (hrecip : st.swipes.any (fun s => s.swiper == b && s.swiped == a &&
      isLikeAction s.action) = true)
    (hinv : st.«matches».countP (activeMatchBetween a b) ≤ 1) :
    ((swipeHandler st a b SwipeAction.like now).2.1.«matches».countP
        (activeMatchBetween a b)) = 1 ∧
    (st.«matches».any (activeMatchBetween a b) = false →
      ((swipeHandler st a b SwipeAction.like now).2.1.notifs.countP
          (fun n => n.recipient == a && n.type == NotifType.«match»)) =
        (st.notifs.countP
          (fun n => n.recipient == a && n.type == NotifType.«match»)) + 1 ∧
      ((swipeHandler st a b SwipeAction.like now).2.1.notifs.countP
          (fun n => n.recipient == b && n.type == NotifType.«match»)) =
        (st.notifs.countP
          (fun n => n.recipient == b && n.type == NotifType.«match»)) + 1) := by
  have hne_b : (a == b) = false := beq_eq_false_iff_ne.mpr hne
  have hne' : b ≠ a := Ne.symm hne
  have hstep : swipeHandler st a b SwipeAction.like now =
      (200, swipeMatchPhase
        { st with swipes := swipeUpsert a b SwipeAction.like st.swipes }
        a b SwipeAction.like now) := by
    rw [swipeHandler, if_neg (by rw [hne_b]; exact Bool.false_ne_true),
      if_neg (by rw [hb]; exact Bool.false_ne_true)]
  have hlike : isLikeAction SwipeAction.like = true := rfl
  have hrecip1 : (swipeUpsert a b SwipeAction.like st.swipes).any
      (fun s => s.swiper == b && s.swiped == a && isLikeAction s.action) =
        true := swipeUpsert_any_reciprocal hne hrecip
  by_cases hex : st.«matches».any (activeMatchBetween a b) = true
  · -- idempotent branch: an active match already exists, nothing is created
    have hphase : swipeMatchPhase
        { st with swipes := swipeUpsert a b SwipeAction.like st.swipes }
        a b SwipeAction.like now =
        ({ st with swipes := swipeUpsert a b SwipeAction.like st.swipes },
          true) := by
      simp only [swipeMatchPhase, hlike, if_true, hrecip1, hex]
    rw [hstep, hphase]
    have hpos : 0 < st.«matches».countP (activeMatchBetween a b) := by
      rcases List.any_eq_true.mp hex with ⟨m, hm, hpm⟩
      exact List.countP_pos_iff.mpr ⟨m, hm, hpm⟩
    refine ⟨?_, fun hfalse => ?_⟩
    · show st.«matches».countP (activeMatchBetween a b) = 1
      omega
    · rw [hfalse] at hex
      cases hex
  · -- fresh branch: the match and both notifications are created
    have hexf : st.«matches».any (activeMatchBetween a b) = false :=
      Bool.eq_false_iff.mpr hex
    have hphase : swipeMatchPhase
        { st with swipes := swipeUpsert a b SwipeAction.like st.swipes }
        a b SwipeAction.like now =
        ({ st with
            swipes := swipeUpsert a b SwipeAction.like st.swipes
            «matches» := st.«matches» ++
              [⟨st.nextMatchId, a, b, .active, now, now, none⟩]
            notifs := st.notifs ++
              [⟨a, some b, .«match»⟩, ⟨b, some a, .«match»⟩]
            nextMatchId := st.nextMatchId + 1 }, true) := by
      simp only [swipeMatchPhase, hlike, if_true, hrecip1, hexf,
        Bool.false_eq_true, if_false]
    rw [hstep, hphase]
    have hzero : st.«matches».countP (activeMatchBetween a b) = 0 := by
      rw [List.countP_eq_zero]
      intro m hm
      have := List.any_eq_false.mp hexf m hm
      simpa using this
    refine ⟨?_, fun _ => ⟨?_, ?_⟩⟩
    · simp only [List.countP_append, hzero]
      simp [activeMatchBetween, List.countP_cons]
    · simp only [List.countP_append]
      simp [List.countP_cons, hne']
    · simp only [List.countP_append]
      simp [List.countP_cons, hne]

/-- Concrete witness for `swipe_reciprocal_match`: user 2 has liked user 1;
user 1 now likes user 2 and exactly one active match results, with one
`match` notification per side. -/
theorem swipe_reciprocal_match_witness :
    ((swipeHandler ⟨[1, 2], [⟨2, 1, SwipeAction.like⟩], [], [], 0⟩
        1 2 SwipeAction.like 7).2.1.«matches».countP
      (activeMatchBetween 1 2)) = 1 ∧
    ((swipeHandler ⟨[1, 2], [⟨2, 1, SwipeAction.like⟩], [], [], 0⟩
        1 2 SwipeAction.like 7).2.1.notifs.countP
      (fun n => n.recipient == 1 && n.type == NotifType.«match»)) = 1 := by
  have h := swipe_reciprocal_match ⟨[1, 2], [⟨2, 1, SwipeAction.like⟩], [], [], 0⟩
    1 2 7 (by decide) (by decide) (by decide) (by decide)
  exact ⟨h.1, (h.2 (by decide)).1⟩

/-- Claim C3: swiping pass then like on the same ordered pair leaves exactly
one swipe record for `(A, B)`, whose action is `like` (the upsert overwrote
the pass), provided the unique `(swiper, swiped)` index held beforehand. -/
theorem swipe_pass_then_like (st : MState) (a b now now' : Nat)
    (hne : a ≠ b) (hb : st.users.contains b = true)
    (hidx : st.swipes.countP (fun s => s.swiper == a && s.swiped == b) ≤ 1) :
    ((swipeHandler (swipeHandler st a b SwipeAction.pass now).2.1
        a b SwipeAction.like now').2.1.swipes.countP
      (fun s => s.swiper == a && s.swiped == b)) = 1 ∧
    (∀ s ∈ (swipeHandler (swipeHandler st a b SwipeAction.pass now).2.1
        a b SwipeAction.like now').2.1.swipes,
      (s.swiper == a && s.swiped == b) = true →
        s.action = SwipeAction.like) := by
  have hne_b : (a == b) = false := beq_eq_false_iff_ne.mpr hne
  have hsw1 : (swipeHandler st a b SwipeAction.pass now).2.1.swipes =
      swipeUpsert a b SwipeAction.pass st.swipes :=
    swipeHandler_swipes st a b SwipeAction.pass now hne_b hb
  have husers1 : (swipeHandler st a b SwipeAction.pass now).2.1.users =
      st.users := swipeHandler_users st a b SwipeAction.pass now hne_b hb
  have hb2 : (swipeHandler st a b SwipeAction.pass now).2.1.users.contains b =
      true := by rw [husers1]; exact hb
  have hsw2 : (swipeHandler (swipeHandler st a b SwipeAction.pass now).2.1
      a b SwipeAction.like now').2.1.swipes =
      swipeUpsert a b SwipeAction.like
        (swipeUpsert a b SwipeAction.pass st.swipes) := by
    rw [swipeHandler_swipes _ a b SwipeAction.like now' hne_b hb2, hsw1]
  rw [hsw2]
  have hcount1 : (swipeUpsert a b SwipeAction.pass st.swipes).countP
      (fun s => s.swiper == a && s.swiped == b) = 1 :=
    swipeUpsert_pair_count SwipeAction.pass hidx
  exact ⟨swipeUpsert_pair_count SwipeAction.like (le_of_eq hcount1),
    swipeUpsert_pair_action SwipeAction.like _ (le_of_eq hcount1)⟩

/-- Concrete witness for `swipe_pass_then_like`: user 1 passes on user 2,
then likes them. -/
theorem swipe_pass_then_like_witness :
    ((swipeHandler (swipeHandler ⟨[1, 2], [], [], [], 0⟩
        1 2 SwipeAction.pass 3).2.1 1 2 SwipeAction.like 4).2.1.swipes.countP
      (fun s => s.swiper == 1 && s.swiped == 2)) = 1 :=
  (swipe_pass_then_like ⟨[1, 2], [], [], [], 0⟩ 1 2 3 4
    (by decide) (by decide) (by decide)).1

end CampusCrush
